import Mathlib

/-!
Shallow embedding of the otomoto scraping repository.

Sources embedded here:
- src/models/car.py            (Car, CarSearchParams)
- src/utils/helpers.py         (calculate_price_interval)
- src/utils/config.py          (FUEL_TYPE_MAP, TRANSMISSION_MAP, OTOMOTO_SEARCH_URL)
- src/scraper/otomoto_scraper.py  (_build_url, _deduplicate, _parse_node_data,
                                   price handling of _extract_from_html)
- src/utils/brand_model_validator.py (BrandModelValidator.validate_search_params)

Python floats are modelled as exact rationals (ℚ); Python `round(x, 2)` and the
format `f"{v:.0f}"` are modelled by exact round-half-even on ℚ.  List lengths,
counts and machine integers are Nat/Int.  Fallible code returns Option.
-/

namespace Otomoto

/-- Embedding of the `Car` dataclass from src/models/car.py.  `preco_numerico`
(a Python float) is modelled as an exact rational. -/
structure Car where
  titulo : String
  preco : String
  preco_numerico : ℚ
  moeda : String := "PLN"
  ano : Option Int := none
  quilometragem : Option String := none
  combustivel : Option String := none
  url : Option String := none
deriving DecidableEq

/-- Embedding of the `CarSearchParams` dataclass from src/models/car.py. -/
structure CarSearchParams where
  marca : Option String := none
  modelo : Option String := none
  ano_min : Option Int := none
  ano_max : Option Int := none
  km_max : Option Int := none
  preco_max : Option Int := none
  caixa : Option String := none
  combustivel : Option String := none
deriving DecidableEq

/-! ## Price aggregator (src/utils/helpers.py, calculate_price_interval) -/

/-- Result record of `calculate_price_interval`.  The two nested dictionary
fields `preco_intervalo.min` / `preco_intervalo.max` are flattened;
`anuncios_usados` holds the listing records themselves (the Python code stores
`c.to_dict()`, a field-for-field rendering of the same record). -/
structure PriceStats where
  intervalo_min : Option ℚ
  intervalo_max : Option ℚ
  media_aproximada : Option ℚ
  viaturas_consideradas : Nat
  anuncios_usados : List Car
deriving DecidableEq

/-- Round-half-even to the nearest integer (the rounding used by Python's
`round` builtin and by the `:.0f` format). -/
def roundHalfEven (x : ℚ) : ℤ :=
  let f : ℤ := ⌊x⌋
  let frac : ℚ := x - f
  if frac < 1/2 then f
  else if 1/2 < frac then f + 1
  else if f % 2 = 0 then f else f + 1

/-- Model of Python `round(x, 2)`: round-half-even at two decimal places. -/
def pyRound2 (x : ℚ) : ℚ := (roundHalfEven (x * 100) : ℚ) / 100

/-- Python `min` over a list (None on the empty list, where Python raises). -/
def listMin : List ℚ → Option ℚ
  | [] => none
  | x :: xs => some (xs.foldl min x)

/-- Python `max` over a list (None on the empty list, where Python raises). -/
def listMax : List ℚ → Option ℚ
  | [] => none
  | x :: xs => some (xs.foldl max x)

/-- The outlier trim count `cut = int(len(prices) * 0.05)`.  The Python
expression multiplies by the double closest to 1/20 and truncates; for every
length a Python list can have (far below 2^53) that equals exact truncated
multiplication by 5/100, i.e. `n * 5 / 100` in natural division. -/
def cutCount (n : Nat) : Nat := n * 5 / 100

/-- The list `prices`: numeric prices of the listings that survive the
`> 100` noise filter, in input order
(`[c.preco_numerico for c in cars if c.preco_numerico > 100]`). -/
def pricesOf (cars : List Car) : List ℚ :=
  (cars.filter (fun c => decide (100 < c.preco_numerico))).map Car.preco_numerico

/-- `prices.sort()` — ascending sort of the filtered prices. -/
def sortPrices (ps : List ℚ) : List ℚ := ps.mergeSort (fun a b => decide (a ≤ b))

/-- The trim step of calculate_price_interval:
`clean_prices = prices[cut:-cut]` when `cut > 0`, else the whole list.
The Python slice `l[cut:-cut]` is `drop cut` followed by keeping
`len l - 2*cut` elements (empty when that is not positive). -/
def trimOrAll (sorted : List ℚ) : List ℚ :=
  let cut := cutCount sorted.length
  if 0 < cut then (sorted.drop cut).take (sorted.length - 2 * cut) else sorted

/-- The `clean_prices` value finally used: the trimmed list, with the
`if not clean_prices: clean_prices = prices` fall-back restoring the untrimmed
sorted list. -/
def cleanPrices (prices : List ℚ) : List ℚ :=
  let sorted := sortPrices prices
  let c := trimOrAll sorted
  if c = [] then sorted else c

/-- The result returned on empty or fully filtered input. -/
def nullStats : PriceStats :=
  { intervalo_min := none, intervalo_max := none, media_aproximada := none,
    viaturas_consideradas := 0, anuncios_usados := [] }

/-- Embedding of `calculate_price_interval` from src/utils/helpers.py. -/
def calculate_price_interval (cars : List Car) : PriceStats :=
  if cars = [] then nullStats
  else
    let prices := pricesOf cars
    if prices = [] then nullStats
    else
      let clean := cleanPrices prices
      { intervalo_min := listMin clean
        intervalo_max := listMax clean
        media_aproximada := some (pyRound2 (clean.sum / (clean.length : ℚ)))
        viaturas_consideradas := clean.length
        anuncios_usados := cars.filter (fun c => decide (c.preco_numerico ∈ clean)) }

/-! ## Deduplication (src/scraper/otomoto_scraper.py, _deduplicate) -/

/-- Python `str(x)` on an `Optional[str]`: `None` renders as the text `None`
inside the f-string building the composite key. -/
def pyStrOpt : Option String → String
  | none => "None"
  | some s => s

/-- The composite fall-back key `f"{c.titulo}_{c.preco}_{c.quilometragem}"`. -/
def compositeKey (c : Car) : String :=
  c.titulo ++ "_" ++ c.preco ++ "_" ++ pyStrOpt c.quilometragem

/-- The deduplication key `c.url if c.url else composite`: the source URL when
it is truthy (present and non-empty), else the composite key. -/
def dedupKey (c : Car) : String :=
  match c.url with
  | some u => if u = "" then compositeKey c else u
  | none => compositeKey c

/-- Insertion-ordered dictionary update `unique[key] = c`: replace the value at
an existing key in place, else append the new binding at the end. -/
def upsert : List (String × Car) → String → Car → List (String × Car)
  | [], k, c => [(k, c)]
  | p :: rest, k, c => if p.1 = k then (k, c) :: rest else p :: upsert rest k c

/-- The dictionary built by the `for c in cars: unique[key] = c` loop. -/
def dedupMap (cars : List Car) : List (String × Car) :=
  cars.foldl (fun m c => upsert m (dedupKey c) c) []

/-- Embedding of `_deduplicate`: `list(unique.values())`. -/
def deduplicate (cars : List Car) : List Car := (dedupMap cars).map Prod.snd

/-! ## URL building (src/scraper/otomoto_scraper.py, _build_url;
maps and URL constant from src/utils/config.py) -/

def OTOMOTO_BASE_URL : String := "https://www.otomoto.pl"

def OTOMOTO_SEARCH_URL : String := OTOMOTO_BASE_URL ++ "/osobowe"

/-- FUEL_TYPE_MAP from src/utils/config.py, as an insertion-ordered
association list. -/
def FUEL_TYPE_MAP : List (String × String) :=
  [("gasolina", "petrol"), ("gasoleo", "diesel"), ("diesel", "diesel"),
   ("gpl", "lpg"), ("hibrido", "hybrid"), ("eletrico", "electric"),
   ("hidrogenio", "hydrogen")]

/-- TRANSMISSION_MAP from src/utils/config.py. -/
def TRANSMISSION_MAP : List (String × String) :=
  [("manual", "manual"), ("automatica", "automatic")]

/-- Python dictionary lookup `m[k]` combined with the `k in m` membership
test: the value at the first matching key, if any. -/
def mapLookup (m : List (String × String)) (k : String) : Option String :=
  (m.find? (fun p => p.1 == k)).map Prod.snd

/-- One optional string-valued query entry: `if params.f: qp[key] = params.f`.
Python truthiness drops both `None` and the empty string. -/
def optStrParam (key : String) (v : Option String) : List (String × String) :=
  match v with
  | some s => if s = "" then [] else [(key, s)]
  | none => []

/-- One optional integer-valued query entry: `if params.f: qp[key] = params.f`.
Python truthiness drops both `None` and `0`; `urlencode` renders the value
with `str`. -/
def optIntParam (key : String) (v : Option Int) : List (String × String) :=
  match v with
  | some n => if n = 0 then [] else [(key, toString n)]
  | none => []

/-- One enum-mapped query entry:
`if params.f and params.f in MAP: qp[key] = MAP[params.f]`. -/
def optMapParam (key : String) (m : List (String × String)) (v : Option String) :
    List (String × String) :=
  match v with
  | some s =>
    if s = "" then []
    else
      match mapLookup m s with
      | some t => [(key, t)]
      | none => []
  | none => []

/-- The query dictionary assembled by `_build_url`, in insertion order (all
keys are distinct literals, so the dictionary is exactly this ordered list). -/
def buildQuery (params : CarSearchParams) (page : Int) : List (String × String) :=
  [("search[advanced_search_expanded]", "true")]
  ++ (if 1 < page then [("page", toString page)] else [])
  ++ optStrParam "search[filter_enum_make]" params.marca
  ++ optStrParam "search[filter_enum_model]" params.modelo
  ++ optIntParam "search[filter_float_year:from]" params.ano_min
  ++ optIntParam "search[filter_float_year:to]" params.ano_max
  ++ optIntParam "search[filter_float_mileage:to]" params.km_max
  ++ optIntParam "search[filter_float_price:to]" params.preco_max
  ++ optMapParam "search[filter_enum_fuel_type]" FUEL_TYPE_MAP params.combustivel
  ++ optMapParam "search[filter_enum_gearbox]" TRANSMISSION_MAP params.caixa

/-- Hexadecimal digit (uppercase), as used by percent-encoding. -/
def hexDigit (n : Nat) : Char :=
  if n < 10 then Char.ofNat (48 + n) else Char.ofNat (55 + n)

/-- Percent-encoding of one character as done by `urllib.parse.quote_plus` for
the code points occurring in these URLs (ASCII): alphanumerics and `_.-~` pass
through, space becomes `+`, anything else becomes `%XX`. -/
def quotePlusChar (c : Char) : String :=
  if c.isAlphanum || c = '_' || c = '.' || c = '-' || c = '~' then String.singleton c
  else if c = ' ' then "+"
  else "%" ++ String.singleton (hexDigit (c.toNat / 16)) ++ String.singleton (hexDigit (c.toNat % 16))

/-- quote_plus over a whole string. -/
def quotePlus (s : String) : String := String.join (s.data.map quotePlusChar)

/-- `urllib.parse.urlencode`: key=value pairs joined with `&`. -/
def urlencode (q : List (String × String)) : String :=
  String.intercalate "&" (q.map (fun p => quotePlus p.1 ++ "=" ++ quotePlus p.2))

/-- Embedding of `_build_url`: the search URL with the encoded query string. -/
def build_url (params : CarSearchParams) (page : Int) : String :=
  OTOMOTO_SEARCH_URL ++ "?" ++ urlencode (buildQuery params page)

/-- Number of query entries carrying a given key. -/
def countKey (q : List (String × String)) (k : String) : Nat :=
  (q.filter (fun p => p.1 == k)).length

/-! ## Character-level models of the Python string primitives used by the
code.  They are written over the character list of the string so that every
definition is structurally recursive (and hence executable by the kernel). -/

/-- Python `str.lower` restricted to the alphabets appearing in this code:
ASCII lowercasing (catalog keys, canonical values and display texts are
ASCII). -/
def pyLowerChar (c : Char) : Char :=
  if 65 ≤ c.toNat && c.toNat ≤ 90 then Char.ofNat (c.toNat + 32) else c

/-- Lowercasing of a whole string. -/
def pyLower (s : String) : String := ⟨s.data.map pyLowerChar⟩

/-- Python `str.strip` with no argument: remove leading and trailing
whitespace. -/
def pyStrip (s : String) : String :=
  ⟨((s.data.dropWhile Char.isWhitespace).reverse.dropWhile
      Char.isWhitespace).reverse⟩

/-- Adjacency search for a two-character pattern, used to model Python's
substring test `sub in s` for the fixed two-character pattern the code
checks. -/
def containsPair (a b : Char) : List Char → Bool
  | [] => false
  | [_] => false
  | c1 :: c2 :: rest => (c1 == a && c2 == b) || containsPair a b (c2 :: rest)

/-! ## Structured-data extraction (src/scraper/otomoto_scraper.py,
_parse_node_data) -/

/-- The shapes of `node.get('price', {})` reaching `_parse_node_data`:
a nested dict with a dict `amount` (carrying optional numeric `units` and
`currencyCode`); a bare numeric price (int/float — on this shape the very
first test `'amount' in price_obj` raises TypeError, the enclosing `except`
returns None and the record is discarded, so the `elif isinstance` branch is
unreachable for numbers); a numeric string (here `'amount' in s` is a
substring test, False for any numeric text, so the string flows into
`float(amount)` — represented by its parsed value; a nonempty string is
truthy, so even the text form of zero passes the falsiness guard, and a
leading minus sign parses to a negative value); a nonempty string `float`
cannot parse (raises, record discarded); or anything else (the else-branch
returns None; a missing `price` key defaults to `{}`, which also lands
here). -/
inductive PriceObj where
  | amountObj (units : Option ℚ) (currencyCode : Option String)
  | scalar (v : ℚ)
  | scalarNumStr (v : ℚ)
  | scalarBadStr
  | other
deriving DecidableEq

/-- One entry of the node's flat `parameters` list. -/
structure NodeParam where
  key : String
  displayValue : Option String
  value : Option String
deriving DecidableEq

/-- A candidate listing record from the embedded JSON payload.  Callers only
invoke the parser on records that contain a title, so `title` is a plain
string here. -/
structure NodeData where
  title : String
  url : Option String
  price : PriceObj
  currency : Option String
  parameters : List NodeParam
deriving DecidableEq

/-- Render `f"{price_val:.0f}"`: round-half-even to an integer and print it.
(The float edge case formatting a small negative value as `-0` does not arise
in these claims.) -/
def formatAmount (v : ℚ) : String := toString (roundHalfEven v)

/-- The `val = p.get('displayValue') or p.get('value')` disjunction: the
display value when truthy, else the raw value. -/
def paramVal (p : NodeParam) : Option String :=
  match p.displayValue with
  | some s => if s = "" then p.value else some s
  | none => p.value

/-- One iteration of the parameter loop of `_parse_node_data`, over the state
(year, mileage, fuel).  `int(val)` on an unparsable year string raises, which
the enclosing `except` turns into discarding the whole record: modelled by
returning `none`. -/
def stepParam (st : Option Int × Option String × Option String) (p : NodeParam) :
    Option (Option Int × Option String × Option String) :=
  let (year, mileage, fuel) := st
  let val := paramVal p
  if p.key = "year" then
    match val with
    | some s =>
      if s = "" then some (none, mileage, fuel)
      else
        match (pyStrip s).toInt? with
        | some n => some (some n, mileage, fuel)
        | none => none
    | none => some (none, mileage, fuel)
  else if p.key = "mileage" then
    let m : Option String :=
      match val with
      | some s => if s = "" then none else some (s ++ " km")
      | none => none
    some (year, m, fuel)
  else if p.key = "fuel_type" then some (year, mileage, val)
  else some st

/-- The whole parameter loop. -/
def extractParams (ps : List NodeParam) :
    Option (Option Int × Option String × Option String) :=
  ps.foldlM stepParam (none, none, none)

/-- The amount/currency resolution of `_parse_node_data`, including the
`if not amount: return None` falsiness guard (`None` and numeric zero are
falsy; a nonempty numeric string is truthy even when it denotes zero).
A bare int/float price yields `none`: `'amount' in price_obj` raises
TypeError on a non-iterable before the isinstance branch can run, and the
enclosing `except` discards the record. -/
def nodeAmount (node : NodeData) : Option (ℚ × String) :=
  match node.price with
  | .amountObj units currencyCode =>
    match units with
    | some a => if a = 0 then none else some (a, currencyCode.getD "PLN")
    | none => none
  | .scalar _ => none
  | .scalarNumStr v => some (v, node.currency.getD "PLN")
  | .scalarBadStr => none
  | .other => none

/-- Embedding of `_parse_node_data`. -/
def parse_node_data (node : NodeData) : Option Car :=
  match nodeAmount node with
  | none => none
  | some (a, cur) =>
    match extractParams node.parameters with
    | none => none
    | some (year, mileage, fuel) =>
      some { titulo := node.title
             preco := formatAmount a ++ " " ++ cur
             preco_numerico := a
             moeda := cur
             ano := year
             quilometragem := mileage
             combustivel := fuel
             url := node.url }

/-! ## Visual-HTML extraction, price handling (src/scraper/otomoto_scraper.py,
_extract_from_html).

The regex machinery locating the price match inside the article text is
abstracted away: the two captured groups (the numeric run and the currency
token) are the inputs, and the per-article arithmetic on them is embedded
exactly. -/

/-- Membership of a character in the numeric-run pattern `[\d\s\.]`. -/
def isPriceRunChar (c : Char) : Bool := c.isDigit || c = ' ' || c = '.'

/-- The shape the first regex group `(\d[\d\s\.]*)` guarantees. -/
def matchesPriceRun (s : String) : Bool :=
  match s.data with
  | [] => false
  | c :: rest => c.isDigit && rest.all isPriceRunChar

/-- The cleanup
`price_str = m.group(1).replace(' ', '').replace('.', '').replace(',', '.')`
followed by the glued-year heuristic (strip the first four characters when the
cleaned string has more than 7 characters and starts with `20`).  Each
`replace` has a single-character pattern, so deleting is filtering the
character out and substituting is a character map. -/
def cleanPriceStr (s : String) : String :=
  let l1 := ((s.data.filter (fun c => !(c == ' '))).filter
      (fun c => !(c == '.'))).map (fun c => if c = ',' then '.' else c)
  if 7 < l1.length && l1.take 2 == ['2', '0'] then ⟨l1.drop 4⟩ else ⟨l1⟩

/-- Digits of a character list as a number, `none` when empty or when a
non-digit appears. -/
def digitsToNat? (l : List Char) : Option Nat :=
  match l with
  | [] => none
  | _ =>
    l.foldlM (fun acc c => if c.isDigit then some (acc * 10 + (c.toNat - 48)) else none) 0

/-- Splitting a character list at every dot (the list always has one more
part than there are dots, as with Python `str.split`). -/
def splitOnDot : List Char → List (List Char)
  | [] => [[]]
  | c :: rest =>
    if c = '.' then [] :: splitOnDot rest
    else
      match splitOnDot rest with
      | [] => [[c]]
      | h :: t => (c :: h) :: t

/-- Model of Python `float` on the unsigned decimal strings produced by the
price cleanup: digits with at most one dot, at least one digit overall
(`"5."` and `".5"` parse, `""` and `"."` raise → none). -/
def parseDecimal? (s : String) : Option ℚ :=
  match splitOnDot s.data with
  | [w] => (digitsToNat? w).map (fun n => (n : ℚ))
  | [w, f] =>
    match w, f with
    | [], [] => none
    | [], fd => (digitsToNat? fd).map (fun n => (n : ℚ) / (10 : ℚ) ^ fd.length)
    | wd, [] => (digitsToNat? wd).map (fun n => (n : ℚ))
    | wd, fd =>
      match digitsToNat? wd, digitsToNat? fd with
      | some n, some m => some ((n : ℚ) + (m : ℚ) / (10 : ℚ) ^ fd.length)
      | _, _ => none
  | _ => none

/-- Python `s.upper()` restricted to the alphabet of the currency tokens the
regex can capture (`PLN`, `EUR`, `zł` in any case): ASCII uppercasing plus the
Polish letter ł. -/
def pyUpperChar (c : Char) : Char :=
  if c = 'ł' then 'Ł'
  else if 97 ≤ c.toNat && c.toNat ≤ 122 then Char.ofNat (c.toNat - 32)
  else c

/-- Uppercasing of a whole currency token. -/
def pyUpper (s : String) : String := ⟨s.data.map pyUpperChar⟩

/-- The substring test `'ZŁ' in currency` of the source. -/
def containsZL (s : String) : Bool := containsPair 'Z' 'Ł' s.data

/-- The price/currency computation of one HTML article, given the two regex
groups: cleanup, glued-year strip, parse, the `< 500` sanity guard, and the
zł→PLN currency normalization. -/
def htmlPrice (g1 g2 : String) : Option (ℚ × String) :=
  match parseDecimal? (cleanPriceStr g1) with
  | none => none
  | some v =>
    if v < 500 then none
    else
      let cu := pyUpper g2
      some (v, if containsZL cu then "PLN" else cu)

/-- The Car built for one HTML article whose price regex matched with groups
`g1`/`g2`; `none` when the article is skipped by the parse failure or the
sanity guard.  The year/mileage/fuel scans over the article text are
independent of the price and enter as inputs. -/
def mkHtmlCar (url title g1 g2 : String) (year : Option Int)
    (mileage : Option String) (fuel : Option String) : Option Car :=
  match htmlPrice g1 g2 with
  | none => none
  | some (v, cur) =>
    some { titulo := title
           preco := formatAmount v ++ " " ++ cur
           preco_numerico := v
           moeda := cur
           ano := year
           quilometragem := mileage
           combustivel := fuel
           url := some url }

/-! ## Brand/model validation (src/utils/brand_model_validator.py) -/

/-- One model entry `{value, text}` of a brand's model list. -/
structure ModelEntry where
  value : String
  text : String
deriving DecidableEq

/-- One catalog entry `{brand_value, brand_text, models}` (the documented
schema of the reference catalog file; all fields present). -/
structure BrandEntry where
  brand_value : String
  brand_text : String
  models : List ModelEntry
deriving DecidableEq

/-- The validation result.  The Python `suggestions` dictionary may carry a
`marcas` key or a `modelos_disponiveis` key; each is modelled as an optional
list. -/
structure ValidationResult where
  valid : Bool
  brand_value : Option String
  model_value : Option String
  errors : List String
  sugg_marcas : Option (List String)
  sugg_modelos : Option (List String)
deriving DecidableEq

/-- A single-quote character, used inside the validator's error messages. -/
def sq : String := String.singleton (Char.ofNat 39)

/-- The brand matching condition of the lookup loop, against the cleaned input
`q = marca_input.lower().strip()`:
`key.lower() == q or data.get('brand_value') == q or data.get('brand_text', '').lower() == q`.
Note the middle comparison uses the stored `brand_value` verbatim — only the
input side is lowercased. -/
def brandMatches (q : String) (key : String) (e : BrandEntry) : Bool :=
  pyLower key == q || e.brand_value == q || pyLower e.brand_text == q

/-- The brand lookup loop: first catalog entry (in insertion order) whose key,
canonical value or display text matches. -/
def findBrand (catalog : List (String × BrandEntry)) (q : String) :
    Option (String × BrandEntry) :=
  catalog.find? (fun p => brandMatches q p.1 p.2)

/-- The model matching condition:
`model['text'].lower() == qm or model['value'].lower() == qm`. -/
def modelMatches (qm : String) (md : ModelEntry) : Bool :=
  pyLower md.text == qm || pyLower md.value == qm

/-- Embedding of `BrandModelValidator.validate_search_params`.  The catalog is
the `brands` dictionary as an insertion-ordered association list.  Python
truthiness: a `None` or empty brand input returns the trivially valid result;
an absent or empty model input skips model validation. -/
def validate_search_params (catalog : List (String × BrandEntry))
    (marca_input modelo_input : Option String) : ValidationResult :=
  let base : ValidationResult :=
    { valid := true, brand_value := none, model_value := none,
      errors := [], sugg_marcas := none, sugg_modelos := none }
  match marca_input with
  | none => base
  | some m =>
    if m = "" then base
    else
      let q := pyStrip (pyLower m)
      match findBrand catalog q with
      | none =>
        { base with
          valid := false
          errors := ["Marca " ++ sq ++ m ++ sq ++ " não encontrada."]
          sugg_marcas := some ((catalog.map Prod.fst).take 5) }
      | some p =>
        let withBrand := { base with brand_value := some p.2.brand_value }
        match modelo_input with
        | none => withBrand
        | some mo =>
          if mo = "" then withBrand
          else
            let qm := pyStrip (pyLower mo)
            match p.2.models.find? (fun md => modelMatches qm md) with
            | some md => { withBrand with model_value := some md.value }
            | none =>
              { withBrand with
                valid := false
                errors := ["Modelo " ++ sq ++ mo ++ sq ++ " não encontrado para a marca."]
                sugg_modelos := some (p.2.models.map ModelEntry.text) }

/-! ## Auxiliary definitions used by the verification theorems -/

/-- Truthiness of an optional string (Python `if params.f:`). -/
def strTruthy : Option String → Bool
  | none => false
  | some s => !(s == "")

/-- Truthiness of an optional integer (Python `if params.f:`). -/
def intTruthy : Option Int → Bool
  | none => false
  | some n => !(n == 0)

/-- The condition under which an enum-mapped parameter contributes a query
key: truthy and with an entry in the map. -/
def mappedTruthy (m : List (String × String)) (v : Option String) : Bool :=
  match v with
  | none => false
  | some s => !(s == "") && (mapLookup m s).isSome

/-- Dictionary lookup in the deduplication map. -/
def lookupKey (m : List (String × Car)) (k : String) : Option Car :=
  (m.find? (fun p => p.1 == k)).map Prod.snd

/-- Invariant of the deduplication dictionary: every stored binding is keyed
by its car's deduplication key, and keys are distinct. -/
def goodMap (m : List (String × Car)) : Prop :=
  (∀ p ∈ m, dedupKey p.2 = p.1) ∧ (m.map Prod.fst).Nodup

/-- Non-negativity of every numeric amount carried by a node's price payload
that can reach a Listing: the nested units value, or the parsed value of a
numeric-string price.  A bare int/float price never reaches a Listing (its
record is discarded by the TypeError path), so no condition is needed
there. -/
def nodeAmountsNonneg (node : NodeData) : Prop :=
  match node.price with
  | .amountObj units _ => ∀ a, units = some a → 0 ≤ a
  | .scalar _ => True
  | .scalarNumStr v => 0 ≤ v
  | .scalarBadStr => True
  | .other => True

/-! Concrete inputs used by witnesses and counterexamples. -/

/-- A structured-data record whose price is the numeric string `-500`: the
substring test `'amount' in "-500"` is False, so the string branch runs and
`float("-500")` yields a negative amount. -/
def negNode : NodeData :=
  { title := "t", url := some "u", price := .scalarNumStr (-500),
    currency := none, parameters := [] }

/-- A structured-data record whose price is the nested dict shape with a
positive units amount. -/
def posNode : NodeData :=
  { title := "t", url := none, price := .amountObj (some 1000) none,
    currency := none, parameters := [] }

/-- The listing `posNode` parses to. -/
def posCar : Car :=
  { titulo := "t", preco := "1000 PLN", preco_numerico := 1000, moeda := "PLN" }

/-- The listing the HTML path builds from price groups "600" / "PLN". -/
def htmlCar600 : Car :=
  { titulo := "t", preco := "600 PLN", preco_numerico := 600, moeda := "PLN",
    url := some "u" }

/-- Two concrete listings with prices above the noise threshold. -/
def carsTwo : List Car :=
  [{ titulo := "a", preco := "200 PLN", preco_numerico := 200 },
   { titulo := "b", preco := "300 PLN", preco_numerico := 300 }]

/-- One concrete listing below the noise threshold. -/
def carsLow : List Car :=
  [{ titulo := "c", preco := "50 PLN", preco_numerico := 50 }]

/-- A one-entry catalog whose canonical value is stored in upper case. -/
def catalogUpper : List (String × BrandEntry) :=
  [("opel", { brand_value := "BMW", brand_text := "Opel", models := [] })]

/-- A one-entry catalog in the usual lower-case form. -/
def catalogBmw : List (String × BrandEntry) :=
  [("bmw", { brand_value := "bmw", brand_text := "BMW", models := [] })]

/-- Search parameters whose only set field is a present-but-falsy year. -/
def paramsZeroYear : CarSearchParams := { ano_min := some 0 }

/-! ## Aggregator lemmas -/

theorem cutCount_eq_div20 (n : Nat) : cutCount n = n / 20 := by
  unfold cutCount
  omega

theorem length_sortPrices (ps : List ℚ) : (sortPrices ps).length = ps.length :=
  List.length_mergeSort ps

theorem sortPrices_perm (ps : List ℚ) : (sortPrices ps).Perm ps :=
  List.mergeSort_perm ps _

theorem sortPrices_ne_nil {ps : List ℚ} (h : ps ≠ []) : sortPrices ps ≠ [] := by
  intro hn
  apply h
  have hl := length_sortPrices ps
  rw [hn] at hl
  exact List.length_eq_zero.mp hl.symm

theorem sortPrices_sorted (ps : List ℚ) :
    List.Pairwise (fun a b : ℚ => a ≤ b) (sortPrices ps) := by
  have htrans : ∀ a b c : ℚ, (decide (a ≤ b)) = true → (decide (b ≤ c)) = true →
      (decide (a ≤ c)) = true := by
    intro a b c hab hbc
    simp only [decide_eq_true_eq] at *
    exact le_trans hab hbc
  have htotal : ∀ a b : ℚ, ((decide (a ≤ b)) || (decide (b ≤ a))) = true := by
    intro a b
    simp only [Bool.or_eq_true, decide_eq_true_eq]
    exact le_total a b
  have h := List.sorted_mergeSort htrans htotal ps
  exact h.imp (by intro a b hab; simpa using hab)

theorem trimOrAll_length_pos {sorted : List ℚ} (h : sorted ≠ []) :
    0 < (trimOrAll sorted).length := by
  have hpos : 0 < sorted.length := List.length_pos.mpr h
  show 0 < (if 0 < cutCount sorted.length then
      (sorted.drop (cutCount sorted.length)).take
        (sorted.length - 2 * cutCount sorted.length)
    else sorted).length
  by_cases hc : 0 < cutCount sorted.length
  · rw [if_pos hc, List.length_take, List.length_drop]
    unfold cutCount at hc ⊢
    omega
  · rw [if_neg hc]
    exact hpos

theorem trimOrAll_ne_nil {sorted : List ℚ} (h : sorted ≠ []) :
    trimOrAll sorted ≠ [] :=
  List.length_pos.mp (trimOrAll_length_pos h)

theorem cleanPrices_eq_trim {ps : List ℚ} (h : ps ≠ []) :
    cleanPrices ps = trimOrAll (sortPrices ps) := by
  show (if trimOrAll (sortPrices ps) = [] then sortPrices ps
    else trimOrAll (sortPrices ps)) = trimOrAll (sortPrices ps)
  rw [if_neg (trimOrAll_ne_nil (sortPrices_ne_nil h))]

theorem trimOrAll_eq_slice (sorted : List ℚ) :
    trimOrAll sorted =
      (sorted.drop (sorted.length / 20)).take
        (sorted.length - 2 * (sorted.length / 20)) := by
  have hcut : cutCount sorted.length = sorted.length / 20 := cutCount_eq_div20 _
  show (if 0 < cutCount sorted.length then
      (sorted.drop (cutCount sorted.length)).take
        (sorted.length - 2 * cutCount sorted.length)
    else sorted) = _
  by_cases hc : 0 < cutCount sorted.length
  · rw [if_pos hc, hcut]
  · rw [if_neg hc]
    rw [hcut] at hc
    have h0 : sorted.length / 20 = 0 := by omega
    rw [h0]
    simp

theorem pricesOf_ne_nil_of_mem {cars : List Car} {c : Car} (hc : c ∈ cars)
    (hgt : 100 < c.preco_numerico) : pricesOf cars ≠ [] := by
  have hmem : c.preco_numerico ∈ pricesOf cars := by
    unfold pricesOf
    exact List.mem_map_of_mem _ (List.mem_filter.mpr ⟨hc, by simpa using hgt⟩)
  intro hn
  rw [hn] at hmem
  exact List.not_mem_nil _ hmem

theorem calculate_eq_of_prices_ne_nil (cars : List Car)
    (h : pricesOf cars ≠ []) :
    calculate_price_interval cars =
      { intervalo_min := listMin (cleanPrices (pricesOf cars))
        intervalo_max := listMax (cleanPrices (pricesOf cars))
        media_aproximada := some (pyRound2 ((cleanPrices (pricesOf cars)).sum /
          ((cleanPrices (pricesOf cars)).length : ℚ)))
        viaturas_consideradas := (cleanPrices (pricesOf cars)).length
        anuncios_usados := cars.filter
          (fun c => decide (c.preco_numerico ∈ cleanPrices (pricesOf cars))) } := by
  have hcars : cars ≠ [] := by
    intro hc
    apply h
    rw [hc]
    rfl
  show (if cars = [] then nullStats else
    if pricesOf cars = [] then nullStats else _) = _
  rw [if_neg hcars, if_neg h]

/-- C7: on empty input, or input in which every listing has numeric price
at most 100, the aggregator returns a null interval, null average and
considered count 0 (listings priced ≤ 100 never reach the statistics). -/
theorem C7_null_on_empty_or_all_filtered (cars : List Car)
    (h : cars = [] ∨ ∀ c ∈ cars, c.preco_numerico ≤ 100) :
    (calculate_price_interval cars).intervalo_min = none
    ∧ (calculate_price_interval cars).intervalo_max = none
    ∧ (calculate_price_interval cars).media_aproximada = none
    ∧ (calculate_price_interval cars).viaturas_consideradas = 0 := by
  have hnull : calculate_price_interval cars = nullStats := by
    rcases h with h | h
    · rw [h]
      rfl
    · by_cases hcars : cars = []
      · rw [hcars]
        rfl
      · have hp : pricesOf cars = [] := by
          unfold pricesOf
          rw [List.filter_eq_nil_iff.mpr ?_]
          · rfl
          · intro c hc
            simpa using not_lt.mpr (h c hc)
        show (if cars = [] then nullStats else
          if pricesOf cars = [] then nullStats else _) = _
        rw [if_neg hcars, if_pos hp]
  rw [hnull]
  exact ⟨rfl, rfl, rfl, rfl⟩

/-- Witness for C7 at a concrete all-filtered input. -/
theorem C7_witness :
    (calculate_price_interval carsLow).media_aproximada = none ∧
      (calculate_price_interval carsLow).viaturas_consideradas = 0 := by
  have h := C7_null_on_empty_or_all_filtered carsLow (Or.inr (by decide))
  exact ⟨h.2.2.1, h.2.2.2⟩

/-- C10: for a non-empty price list the trim count is floor(0.05·n); when it
is positive, twice the trim count stays below n, the trimmed slice is
non-empty, so the fall-back restoring the untrimmed list never fires and the
averaging divisor (the length of clean_prices) is positive. -/
theorem C10_fallback_unreachable (ps : List ℚ) (h : ps ≠ []) :
    cutCount ps.length = ps.length / 20
    ∧ (0 < cutCount ps.length → 2 * cutCount ps.length < ps.length)
    ∧ trimOrAll (sortPrices ps) ≠ []
    ∧ cleanPrices ps = trimOrAll (sortPrices ps)
    ∧ 0 < (cleanPrices ps).length := by
  refine ⟨cutCount_eq_div20 _, ?_, trimOrAll_ne_nil (sortPrices_ne_nil h),
    cleanPrices_eq_trim h, ?_⟩
  · intro hc
    unfold cutCount at hc ⊢
    omega
  · rw [cleanPrices_eq_trim h]
    exact trimOrAll_length_pos (sortPrices_ne_nil h)

/-- Witness for C10 at a concrete one-element price list. -/
theorem C10_witness :
    cleanPrices [(150 : ℚ)] = trimOrAll (sortPrices [(150 : ℚ)]) ∧
      0 < (cleanPrices [(150 : ℚ)]).length := by
  have h := C10_fallback_unreachable [(150 : ℚ)] (by decide)
  exact ⟨h.2.2.2.1, h.2.2.2.2⟩

/-- C2: for a non-empty filtered price list of length n the aggregator sorts
ascending, and the clean set it goes on to use is exactly the sorted list with
floor(0.05·n) = n/20 elements removed from each end (so for n ≤ 19 nothing is
removed); the returned average is the arithmetic mean of that trimmed set
rounded to two decimal places, the interval bounds are its minimum and
maximum, and the considered count is its size. -/
theorem C2_trim_and_average (cars : List Car) (h : pricesOf cars ≠ []) :
    List.Pairwise (fun a b : ℚ => a ≤ b) (sortPrices (pricesOf cars))
    ∧ cleanPrices (pricesOf cars) =
        ((sortPrices (pricesOf cars)).drop ((pricesOf cars).length / 20)).take
          ((pricesOf cars).length - 2 * ((pricesOf cars).length / 20))
    ∧ ((pricesOf cars).length ≤ 19 →
        cleanPrices (pricesOf cars) = sortPrices (pricesOf cars))
    ∧ (calculate_price_interval cars).media_aproximada =
        some (pyRound2 ((cleanPrices (pricesOf cars)).sum /
          ((cleanPrices (pricesOf cars)).length : ℚ)))
    ∧ (calculate_price_interval cars).intervalo_min =
        listMin (cleanPrices (pricesOf cars))
    ∧ (calculate_price_interval cars).intervalo_max =
        listMax (cleanPrices (pricesOf cars))
    ∧ (calculate_price_interval cars).viaturas_consideradas =
        (cleanPrices (pricesOf cars)).length := by
  have hslice := trimOrAll_eq_slice (sortPrices (pricesOf cars))
  rw [length_sortPrices] at hslice
  have hclean := cleanPrices_eq_trim h
  have hcalc := calculate_eq_of_prices_ne_nil cars h
  refine ⟨sortPrices_sorted _, by rw [hclean, hslice], ?_, by rw [hcalc],
    by rw [hcalc], by rw [hcalc], by rw [hcalc]⟩
  intro h19
  rw [hclean, hslice]
  have h0 : (pricesOf cars).length / 20 = 0 := by omega
  rw [h0, List.drop_zero, Nat.sub_zero, ← length_sortPrices (pricesOf cars)]
  exact List.take_length _

/-- Witness for C2 at two concrete listings (prices 200 and 300): the reported
average is 250. -/
theorem C2_witness :
    (calculate_price_interval carsTwo).media_aproximada = some 250 := by
  have h := C2_trim_and_average carsTwo (by decide)
  have hsort : sortPrices (pricesOf carsTwo) = [200, 300] := by
    have hp : pricesOf carsTwo = [200, 300] := by decide
    rw [sortPrices, hp]
    exact List.mergeSort_of_sorted (by decide)
  have hc : cleanPrices (pricesOf carsTwo) = [200, 300] := by
    show (if trimOrAll (sortPrices (pricesOf carsTwo)) = []
      then sortPrices (pricesOf carsTwo)
      else trimOrAll (sortPrices (pricesOf carsTwo))) = [200, 300]
    rw [hsort]
    decide
  rw [h.2.2.2.1, hc]
  norm_num [pyRound2, roundHalfEven]

/-- C9: when at least one listing passes the > 100 filter, the output listing
records are exactly the input listings whose numeric price is, by value
membership, an element of the trimmed price set. -/
theorem C9_value_membership (cars : List Car)
    (h : ∃ c ∈ cars, 100 < c.preco_numerico) :
    (calculate_price_interval cars).anuncios_usados =
      cars.filter (fun c =>
        decide (c.preco_numerico ∈ trimOrAll (sortPrices (pricesOf cars)))) := by
  obtain ⟨c, hc, hgt⟩ := h
  have hps := pricesOf_ne_nil_of_mem hc hgt
  rw [calculate_eq_of_prices_ne_nil cars hps, cleanPrices_eq_trim hps]

/-- Witness for C9 at two concrete listings. -/
theorem C9_witness :
    (calculate_price_interval carsTwo).anuncios_usados =
      carsTwo.filter (fun c =>
        decide (c.preco_numerico ∈ trimOrAll (sortPrices (pricesOf carsTwo)))) :=
  C9_value_membership carsTwo (by decide)

/-! ## Deduplication lemmas -/

theorem lookupKey_cons (p : String × Car) (m : List (String × Car)) (k : String) :
    lookupKey (p :: m) k = if p.1 = k then some p.2 else lookupKey m k := by
  by_cases h : p.1 = k
  · rw [if_pos h]
    unfold lookupKey
    rw [List.find?_cons_of_pos _ (by simpa using h)]
    rfl
  · rw [if_neg h]
    unfold lookupKey
    rw [List.find?_cons_of_neg _ (by simpa using h)]

theorem lookupKey_upsert (k : String) (c : Car) :
    ∀ (m : List (String × Car)) (k' : String),
      lookupKey (upsert m k c) k' = if k' = k then some c else lookupKey m k' := by
  intro m
  induction m with
  | nil =>
    intro k'
    show lookupKey [(k, c)] k' = _
    rw [lookupKey_cons]
    by_cases h : k' = k
    · simp [h]
    · have h2 : ¬k = k' := fun e => h e.symm
      simp [h, h2, lookupKey]
  | cons p rest ih =>
    intro k'
    show lookupKey (if p.1 = k then (k, c) :: rest else p :: upsert rest k c) k' = _
    by_cases hpk : p.1 = k
    · rw [if_pos hpk, lookupKey_cons, lookupKey_cons]
      by_cases h : k' = k
      · simp [h]
      · have h2 : ¬k = k' := fun e => h e.symm
        have h3 : ¬p.1 = k' := by rw [hpk]; exact h2
        simp [h, h2, h3]
    · rw [if_neg hpk, lookupKey_cons, ih, lookupKey_cons]
      by_cases hpk' : p.1 = k'
      · have hkk : ¬k' = k := by rw [← hpk']; exact hpk
        simp [hpk', hkk]
      · simp [hpk']

theorem lookupKey_foldl_upsert (k : String) :
    ∀ (cars : List Car) (m : List (String × Car)),
      lookupKey (cars.foldl (fun m c => upsert m (dedupKey c) c) m) k =
        ((cars.filter (fun c => dedupKey c == k)).getLast?).or (lookupKey m k) := by
  intro cars
  induction cars with
  | nil =>
    intro m
    simp
  | cons c rest ih =>
    intro m
    rw [List.foldl_cons, ih]
    by_cases hfc : (dedupKey c == k) = true
    · have hk : dedupKey c = k := by simpa using hfc
      rw [show (c :: rest).filter (fun c => dedupKey c == k) =
          c :: rest.filter (fun c => dedupKey c == k) from by
            simp [List.filter_cons, hfc],
        lookupKey_upsert, if_pos hk.symm]
      cases hl : rest.filter (fun c => dedupKey c == k) with
      | nil => simp [hl]
      | cons x xs =>
        obtain ⟨y, hy⟩ : ∃ y, (x :: xs).getLast? = some y := by
          cases h' : (x :: xs).getLast? with
          | none => simp at h'
          | some y => exact ⟨y, rfl⟩
        rw [List.getLast?_cons_cons, hy]
        simp
    · have hk : ¬dedupKey c = k := by simpa using hfc
      have hk2 : ¬k = dedupKey c := fun e => hk e.symm
      have hfcb : (dedupKey c == k) = false := by simpa using hk
      rw [show (c :: rest).filter (fun c => dedupKey c == k) =
          rest.filter (fun c => dedupKey c == k) from by
            simp [List.filter_cons, hfcb],
        lookupKey_upsert, if_neg hk2]

theorem upsert_entries_inv (k : String) (c : Car) (hk : dedupKey c = k) :
    ∀ m : List (String × Car), (∀ p ∈ m, dedupKey p.2 = p.1) →
      ∀ p ∈ upsert m k c, dedupKey p.2 = p.1 := by
  intro m
  induction m with
  | nil =>
    intro _ p hp
    have hp' : p ∈ [(k, c)] := hp
    have : p = (k, c) := by simpa using hp'
    rw [this]
    exact hk
  | cons q rest ih =>
    intro hinv p hp
    have hp' : p ∈ if q.1 = k then (k, c) :: rest else q :: upsert rest k c := hp
    by_cases hq : q.1 = k
    · rw [if_pos hq] at hp'
      rcases List.mem_cons.mp hp' with h1 | h2
      · rw [h1]
        exact hk
      · exact hinv p (List.mem_cons_of_mem _ h2)
    · rw [if_neg hq] at hp'
      rcases List.mem_cons.mp hp' with h1 | h2
      · rw [h1]
        exact hinv q (List.mem_cons_self _ _)
      · exact ih (fun r hr => hinv r (List.mem_cons_of_mem _ hr)) p h2

theorem mem_keys_upsert (k : String) (c : Car) :
    ∀ (m : List (String × Car)) (x : String),
      x ∈ (upsert m k c).map Prod.fst → x = k ∨ x ∈ m.map Prod.fst := by
  intro m
  induction m with
  | nil =>
    intro x hx
    have hx' : x ∈ [(k, c)].map Prod.fst := hx
    left
    simpa using hx'
  | cons q rest ih =>
    intro x hx
    have hx' : x ∈ (if q.1 = k then (k, c) :: rest else q :: upsert rest k c).map Prod.fst := hx
    by_cases hq : q.1 = k
    · rw [if_pos hq, List.map_cons] at hx'
      rcases List.mem_cons.mp hx' with h1 | h2
      · exact Or.inl h1
      · exact Or.inr (by rw [List.map_cons]; exact List.mem_cons_of_mem _ h2)
    · rw [if_neg hq, List.map_cons] at hx'
      rcases List.mem_cons.mp hx' with h1 | h2
      · exact Or.inr (by rw [List.map_cons, h1]; exact List.mem_cons_self _ _)
      · rcases ih x h2 with h3 | h4
        · exact Or.inl h3
        · exact Or.inr (by rw [List.map_cons]; exact List.mem_cons_of_mem _ h4)

theorem nodup_keys_upsert (k : String) (c : Car) :
    ∀ m : List (String × Car), (m.map Prod.fst).Nodup →
      ((upsert m k c).map Prod.fst).Nodup := by
  intro m
  induction m with
  | nil =>
    intro _
    show ([(k, c)].map Prod.fst).Nodup
    simp
  | cons q rest ih =>
    intro hnd
    rw [List.map_cons, List.nodup_cons] at hnd
    obtain ⟨hq_notin, hnd_rest⟩ := hnd
    show ((if q.1 = k then (k, c) :: rest else q :: upsert rest k c).map Prod.fst).Nodup
    by_cases hq : q.1 = k
    · rw [if_pos hq, List.map_cons, List.nodup_cons]
      exact ⟨by rw [← hq]; exact hq_notin, hnd_rest⟩
    · rw [if_neg hq, List.map_cons, List.nodup_cons]
      refine ⟨?_, ih hnd_rest⟩
      intro hmem
      rcases mem_keys_upsert k c rest q.1 hmem with h1 | h2
      · exact hq h1
      · exact hq_notin h2

theorem goodMap_foldl :
    ∀ (cars : List Car) (m : List (String × Car)), goodMap m →
      goodMap (cars.foldl (fun m c => upsert m (dedupKey c) c) m) := by
  intro cars
  induction cars with
  | nil =>
    intro m hm
    exact hm
  | cons c rest ih =>
    intro m hm
    rw [List.foldl_cons]
    exact ih _ ⟨upsert_entries_inv _ c rfl m hm.1, nodup_keys_upsert _ c m hm.2⟩

theorem goodMap_dedupMap (cars : List Car) : goodMap (dedupMap cars) :=
  goodMap_foldl cars [] ⟨by intro p hp; simp at hp, by simp⟩

theorem values_filter_eq_lookup (k : String) :
    ∀ m : List (String × Car), goodMap m →
      (m.map Prod.snd).filter (fun c => dedupKey c == k) = (lookupKey m k).toList := by
  intro m
  induction m with
  | nil =>
    intro _
    rfl
  | cons p rest ih =>
    intro hm
    obtain ⟨hinv, hnd⟩ := hm
    have hp : dedupKey p.2 = p.1 := hinv p (List.mem_cons_self _ _)
    rw [List.map_cons] at hnd ⊢
    rw [List.nodup_cons] at hnd
    obtain ⟨hp_notin, hnd_rest⟩ := hnd
    have hrest : goodMap rest :=
      ⟨fun q hq => hinv q (List.mem_cons_of_mem _ hq), hnd_rest⟩
    rw [lookupKey_cons]
    by_cases h : p.1 = k
    · rw [if_pos h,
        show (p.2 :: rest.map Prod.snd).filter (fun c => dedupKey c == k) =
          p.2 :: (rest.map Prod.snd).filter (fun c => dedupKey c == k) from by
            simp [List.filter_cons, hp, h]]
      have hnil : (rest.map Prod.snd).filter (fun c => dedupKey c == k) = [] := by
        rw [List.filter_eq_nil_iff]
        intro c hc
        obtain ⟨q, hq, hqc⟩ := List.mem_map.mp hc
        have hqk : dedupKey c = q.1 := by rw [← hqc]; exact hinv q (List.mem_cons_of_mem _ hq)
        simp only [beq_iff_eq, hqk]
        intro hqk2
        exact hp_notin (by rw [h, ← hqk2]; exact List.mem_map_of_mem _ hq)
      rw [hnil]
      rfl
    · rw [if_neg h,
        show (p.2 :: rest.map Prod.snd).filter (fun c => dedupKey c == k) =
          (rest.map Prod.snd).filter (fun c => dedupKey c == k) from by
            simp [List.filter_cons, hp, h]]
      exact ih hrest

/-- C3: deduplication keys each record by its source URL when truthy, else by
the composite title/display-price/mileage key; for every key the surviving
records among the output are exactly one — the last record supplied with that
key (last-write-wins) — and no record with an absent key appears. -/
theorem C3_dedup_last_write_wins (cars : List Car) (k : String) :
    (deduplicate cars).filter (fun c => dedupKey c == k) =
      ((cars.filter (fun c => dedupKey c == k)).getLast?).toList := by
  show ((dedupMap cars).map Prod.snd).filter (fun c => dedupKey c == k) = _
  rw [values_filter_eq_lookup k _ (goodMap_dedupMap cars)]
  show (lookupKey (cars.foldl (fun m c => upsert m (dedupKey c) c) []) k).toList = _
  rw [lookupKey_foldl_upsert]
  simp [lookupKey]

/-! ## URL builder lemmas -/

theorem filter_optStr_ne (key : String) (v : Option String) (k : String)
    (h : (key == k) = false) :
    (optStrParam key v).filter (fun p => p.1 == k) = [] := by
  cases v with
  | none => rfl
  | some s =>
    by_cases hs : s = ""
    · simp [optStrParam, hs]
    · simp [optStrParam, hs, List.filter_cons, h]

theorem filter_optStr_self (key : String) (v : Option String) :
    (optStrParam key v).filter (fun p => p.1 == key) = optStrParam key v := by
  cases v with
  | none => rfl
  | some s =>
    by_cases hs : s = ""
    · simp [optStrParam, hs]
    · simp [optStrParam, hs, List.filter_cons]

theorem filter_optInt_ne (key : String) (v : Option Int) (k : String)
    (h : (key == k) = false) :
    (optIntParam key v).filter (fun p => p.1 == k) = [] := by
  cases v with
  | none => rfl
  | some n =>
    by_cases hn : n = 0
    · simp [optIntParam, hn]
    · simp [optIntParam, hn, List.filter_cons, h]

theorem filter_optInt_self (key : String) (v : Option Int) :
    (optIntParam key v).filter (fun p => p.1 == key) = optIntParam key v := by
  cases v with
  | none => rfl
  | some n =>
    by_cases hn : n = 0
    · simp [optIntParam, hn]
    · simp [optIntParam, hn, List.filter_cons]

theorem filter_optMap_ne (key : String) (m : List (String × String))
    (v : Option String) (k : String) (h : (key == k) = false) :
    (optMapParam key m v).filter (fun p => p.1 == k) = [] := by
  cases v with
  | none => rfl
  | some s =>
    by_cases hs : s = ""
    · simp [optMapParam, hs]
    · cases hml : mapLookup m s with
      | none => simp [optMapParam, hs, hml]
      | some t => simp [optMapParam, hs, hml, List.filter_cons, h]

theorem filter_optMap_self (key : String) (m : List (String × String))
    (v : Option String) :
    (optMapParam key m v).filter (fun p => p.1 == key) = optMapParam key m v := by
  cases v with
  | none => rfl
  | some s =>
    by_cases hs : s = ""
    · simp [optMapParam, hs]
    · cases hml : mapLookup m s with
      | none => simp [optMapParam, hs, hml]
      | some t => simp [optMapParam, hs, hml, List.filter_cons]

theorem length_optStr (key : String) (v : Option String) :
    (optStrParam key v).length = if strTruthy v then 1 else 0 := by
  cases v with
  | none => rfl
  | some s =>
    by_cases hs : s = ""
    · simp [optStrParam, strTruthy, hs]
    · simp [optStrParam, strTruthy, hs]

theorem length_optInt (key : String) (v : Option Int) :
    (optIntParam key v).length = if intTruthy v then 1 else 0 := by
  cases v with
  | none => rfl
  | some n =>
    by_cases hn : n = 0
    · simp [optIntParam, intTruthy, hn]
    · simp [optIntParam, intTruthy, hn]

theorem length_optMap (key : String) (m : List (String × String))
    (v : Option String) :
    (optMapParam key m v).length = if mappedTruthy m v then 1 else 0 := by
  cases v with
  | none => rfl
  | some s =>
    by_cases hs : s = ""
    · simp [optMapParam, mappedTruthy, hs]
    · cases hml : mapLookup m s with
      | none => simp [optMapParam, mappedTruthy, hs, hml]
      | some t => simp [optMapParam, mappedTruthy, hs, hml]

theorem filter_pageSeg_ne (page : Int) (k : String) (h : ("page" == k) = false) :
    (if 1 < page then [("page", toString page)] else []).filter
      (fun p => p.1 == k) = [] := by
  by_cases hp : 1 < page
  · simp [hp, List.filter_cons, h]
  · simp [hp]

theorem filter_marker_ne (k : String)
    (h : ("search[advanced_search_expanded]" == k) = false) :
    ([(("search[advanced_search_expanded]" : String), ("true" : String))]).filter
      (fun p => p.1 == k) = [] := by
  simp [List.filter_cons, h]

/-- C4: the query for page 1 carries no page parameter; for any page above 1
it carries exactly one page parameter with that page number; and every built
query carries the advanced-search marker. -/
theorem C4_page_parameter (params : CarSearchParams) (page : Int) :
    (page = 1 → countKey (buildQuery params page) "page" = 0)
    ∧ (1 < page → (buildQuery params page).filter (fun p => p.1 == "page") =
        [("page", toString page)])
    ∧ ("search[advanced_search_expanded]", "true") ∈ buildQuery params page := by
  have hfilter : ∀ pg : Int, (buildQuery params pg).filter (fun p => p.1 == "page") =
      if 1 < pg then [("page", toString pg)] else [] := by
    intro pg
    unfold buildQuery
    repeat rw [List.filter_append]
    rw [filter_marker_ne _ (by decide),
      filter_optStr_ne _ _ _ (by decide), filter_optStr_ne _ _ _ (by decide),
      filter_optInt_ne _ _ _ (by decide), filter_optInt_ne _ _ _ (by decide),
      filter_optInt_ne _ _ _ (by decide), filter_optInt_ne _ _ _ (by decide),
      filter_optMap_ne _ _ _ _ (by decide), filter_optMap_ne _ _ _ _ (by decide)]
    by_cases hp : 1 < pg
    · simp [hp, List.filter_cons]
    · simp [hp]
  refine ⟨?_, ?_, ?_⟩
  · intro h1
    unfold countKey
    rw [hfilter, h1]
    norm_num
  · intro h1
    rw [hfilter, if_pos h1]
  · unfold buildQuery
    simp

/-- Witness for C4 at the empty parameter set, pages 1 and 2. -/
theorem C4_witness :
    countKey (buildQuery {} 1) "page" = 0
    ∧ (buildQuery {} 2).filter (fun p => p.1 == "page") =
        [("page", toString (2 : Int))]
    ∧ ("search[advanced_search_expanded]", "true") ∈ buildQuery {} 1 :=
  ⟨(C4_page_parameter {} 1).1 rfl, (C4_page_parameter {} 2).2.1 (by norm_num),
    (C4_page_parameter {} 1).2.2⟩

/-- C5 (amended): an optional parameter contributes exactly one query key when
it is present with a truthy value (non-empty string, non-zero integer) — a
present-but-falsy value is silently omitted — and a fuel-type or transmission
value contributes exactly one key when truthy and mapped, and is silently
omitted (never an error) when unmapped. -/
theorem C5_truthy_contribution (params : CarSearchParams) (page : Int) :
    countKey (buildQuery params page) "search[filter_enum_make]" =
        (if strTruthy params.marca then 1 else 0)
    ∧ countKey (buildQuery params page) "search[filter_enum_model]" =
        (if strTruthy params.modelo then 1 else 0)
    ∧ countKey (buildQuery params page) "search[filter_float_year:from]" =
        (if intTruthy params.ano_min then 1 else 0)
    ∧ countKey (buildQuery params page) "search[filter_float_year:to]" =
        (if intTruthy params.ano_max then 1 else 0)
    ∧ countKey (buildQuery params page) "search[filter_float_mileage:to]" =
        (if intTruthy params.km_max then 1 else 0)
    ∧ countKey (buildQuery params page) "search[filter_float_price:to]" =
        (if intTruthy params.preco_max then 1 else 0)
    ∧ countKey (buildQuery params page) "search[filter_enum_fuel_type]" =
        (if mappedTruthy FUEL_TYPE_MAP params.combustivel then 1 else 0)
    ∧ countKey (buildQuery params page) "search[filter_enum_gearbox]" =
        (if mappedTruthy TRANSMISSION_MAP params.caixa then 1 else 0) := by
  refine ⟨?_, ?_, ?_, ?_, ?_, ?_, ?_, ?_⟩
  · unfold countKey buildQuery
    repeat rw [List.filter_append]
    rw [filter_optStr_self,
      filter_marker_ne _ (by decide), filter_pageSeg_ne _ _ (by decide),
      filter_optStr_ne _ _ _ (by decide),
      filter_optInt_ne _ _ _ (by decide), filter_optInt_ne _ _ _ (by decide),
      filter_optInt_ne _ _ _ (by decide), filter_optInt_ne _ _ _ (by decide),
      filter_optMap_ne _ _ _ _ (by decide), filter_optMap_ne _ _ _ _ (by decide)]
    simp [length_optStr]
  · unfold countKey buildQuery
    repeat rw [List.filter_append]
    rw [filter_optStr_self,
      filter_marker_ne _ (by decide), filter_pageSeg_ne _ _ (by decide),
      filter_optStr_ne _ _ _ (by decide),
      filter_optInt_ne _ _ _ (by decide), filter_optInt_ne _ _ _ (by decide),
      filter_optInt_ne _ _ _ (by decide), filter_optInt_ne _ _ _ (by decide),
      filter_optMap_ne _ _ _ _ (by decide), filter_optMap_ne _ _ _ _ (by decide)]
    simp [length_optStr]
  · unfold countKey buildQuery
    repeat rw [List.filter_append]
    rw [filter_optInt_self,
      filter_marker_ne _ (by decide), filter_pageSeg_ne _ _ (by decide),
      filter_optStr_ne _ _ _ (by decide), filter_optStr_ne _ _ _ (by decide),
      filter_optInt_ne _ _ _ (by decide), filter_optInt_ne _ _ _ (by decide),
      filter_optInt_ne _ _ _ (by decide),
      filter_optMap_ne _ _ _ _ (by decide), filter_optMap_ne _ _ _ _ (by decide)]
    simp [length_optInt]
  · unfold countKey buildQuery
    repeat rw [List.filter_append]
    rw [filter_optInt_self,
      filter_marker_ne _ (by decide), filter_pageSeg_ne _ _ (by decide),
      filter_optStr_ne _ _ _ (by decide), filter_optStr_ne _ _ _ (by decide),
      filter_optInt_ne _ _ _ (by decide), filter_optInt_ne _ _ _ (by decide),
      filter_optInt_ne _ _ _ (by decide),
      filter_optMap_ne _ _ _ _ (by decide), filter_optMap_ne _ _ _ _ (by decide)]
    simp [length_optInt]
  · unfold countKey buildQuery
    repeat rw [List.filter_append]
    rw [filter_optInt_self,
      filter_marker_ne _ (by decide), filter_pageSeg_ne _ _ (by decide),
      filter_optStr_ne _ _ _ (by decide), filter_optStr_ne _ _ _ (by decide),
      filter_optInt_ne _ _ _ (by decide), filter_optInt_ne _ _ _ (by decide),
      filter_optInt_ne _ _ _ (by decide),
      filter_optMap_ne _ _ _ _ (by decide), filter_optMap_ne _ _ _ _ (by decide)]
    simp [length_optInt]
  · unfold countKey buildQuery
    repeat rw [List.filter_append]
    rw [filter_optInt_self,
      filter_marker_ne _ (by decide), filter_pageSeg_ne _ _ (by decide),
      filter_optStr_ne _ _ _ (by decide), filter_optStr_ne _ _ _ (by decide),
      filter_optInt_ne _ _ _ (by decide), filter_optInt_ne _ _ _ (by decide),
      filter_optInt_ne _ _ _ (by decide),
      filter_optMap_ne _ _ _ _ (by decide), filter_optMap_ne _ _ _ _ (by decide)]
    simp [length_optInt]
  · unfold countKey buildQuery
    repeat rw [List.filter_append]
    rw [filter_optMap_self,
      filter_marker_ne _ (by decide), filter_pageSeg_ne _ _ (by decide),
      filter_optStr_ne _ _ _ (by decide), filter_optStr_ne _ _ _ (by decide),
      filter_optInt_ne _ _ _ (by decide), filter_optInt_ne _ _ _ (by decide),
      filter_optInt_ne _ _ _ (by decide), filter_optInt_ne _ _ _ (by decide),
      filter_optMap_ne _ _ _ _ (by decide)]
    simp [length_optMap]
  · unfold countKey buildQuery
    repeat rw [List.filter_append]
    rw [filter_optMap_self,
      filter_marker_ne _ (by decide), filter_pageSeg_ne _ _ (by decide),
      filter_optStr_ne _ _ _ (by decide), filter_optStr_ne _ _ _ (by decide),
      filter_optInt_ne _ _ _ (by decide), filter_optInt_ne _ _ _ (by decide),
      filter_optInt_ne _ _ _ (by decide), filter_optInt_ne _ _ _ (by decide),
      filter_optMap_ne _ _ _ _ (by decide)]
    simp [length_optMap]

/-- Counterexample to C5 as stated: `ano_min = 0` is present on the parameter
object, yet (being falsy in Python) contributes no query key. -/
theorem C5_counterexample :
    paramsZeroYear.ano_min = some 0
    ∧ countKey (buildQuery paramsZeroYear 1) "search[filter_float_year:from]" = 0 := by
  constructor
  · rfl
  · decide

/-! ## Validator lemmas and claims -/

/-- Counterexample to C6 as stated: the input Bmw differs only in letter case
from the catalog entry's canonical brand value BMW, yet the lookup fails,
because the stored canonical value is compared verbatim against the lowercased
input. -/
theorem C6_counterexample :
    pyLower "Bmw" = pyLower "BMW"
    ∧ (validate_search_params catalogUpper (some "Bmw") none).valid = false := by
  constructor
  · rfl
  · decide

/-- C6 (amended): brand lookup is case-insensitive against the catalog key and
the display text, but against the canonical brand value it compares the
lowercased (and trimmed) input with the stored value verbatim; whenever some
entry matches under these rules, the first matching entry is found and the
input normalizes to that entry's canonical brand value. -/
theorem C6_first_match_normalizes (catalog : List (String × BrandEntry))
    (m : String) (hm : ¬m = "")
    (hex : ∃ p ∈ catalog, brandMatches (pyStrip (pyLower m)) p.1 p.2 = true) :
    ∃ p, findBrand catalog (pyStrip (pyLower m)) = some p
      ∧ brandMatches (pyStrip (pyLower m)) p.1 p.2 = true
      ∧ (validate_search_params catalog (some m) none).valid = true
      ∧ (validate_search_params catalog (some m) none).brand_value =
          some p.2.brand_value := by
  cases hfind : findBrand catalog (pyStrip (pyLower m)) with
  | none =>
    exfalso
    obtain ⟨p, hp, hmatch⟩ := hex
    have hfind' : catalog.find?
        (fun p => brandMatches (pyStrip (pyLower m)) p.1 p.2) = none := hfind
    exact List.find?_eq_none.mp hfind' p hp hmatch
  | some p =>
    have hfind' : catalog.find?
        (fun p => brandMatches (pyStrip (pyLower m)) p.1 p.2) = some p := hfind
    have hmatch := List.find?_some hfind'
    refine ⟨p, rfl, hmatch, ?_, ?_⟩
    · simp [validate_search_params, hm, hfind]
    · simp [validate_search_params, hm, hfind]

/-- Witness for the amended C6: the upper-case input BMW normalizes through
the catalog key bmw. -/
theorem C6_witness :
    ∃ p, findBrand catalogBmw (pyStrip (pyLower "BMW")) = some p
      ∧ brandMatches (pyStrip (pyLower "BMW")) p.1 p.2 = true
      ∧ (validate_search_params catalogBmw (some "BMW") none).valid = true
      ∧ (validate_search_params catalogBmw (some "BMW") none).brand_value =
          some p.2.brand_value :=
  C6_first_match_normalizes catalogBmw "BMW" (by decide) (by decide)

/-- C8: on a non-empty catalog, an input matching no entry yields an invalid
result whose error message names the input, and whose suggestion list is the
first 5 catalog keys in catalog order — hence non-empty and at most 5 long. -/
theorem C8_unknown_brand_suggestions (catalog : List (String × BrandEntry))
    (m : String) (hm : ¬m = "") (hcat : catalog ≠ [])
    (hnone : ∀ p ∈ catalog, brandMatches (pyStrip (pyLower m)) p.1 p.2 = false) :
    (validate_search_params catalog (some m) none).valid = false
    ∧ (validate_search_params catalog (some m) none).errors =
        ["Marca " ++ sq ++ m ++ sq ++ " não encontrada."]
    ∧ (validate_search_params catalog (some m) none).sugg_marcas =
        some ((catalog.map Prod.fst).take 5)
    ∧ ((catalog.map Prod.fst).take 5).length ≤ 5
    ∧ (catalog.map Prod.fst).take 5 ≠ [] := by
  have hfind : findBrand catalog (pyStrip (pyLower m)) = none :=
    List.find?_eq_none.mpr (fun p hp => by simp [hnone p hp])
  refine ⟨by simp [validate_search_params, hm, hfind],
    by simp [validate_search_params, hm, hfind],
    by simp [validate_search_params, hm, hfind], ?_, ?_⟩
  · rw [List.length_take]
    exact min_le_left _ _
  · intro hnil
    rcases List.take_eq_nil_iff.mp hnil with h5 | hmap
    · exact absurd h5 (by norm_num)
    · exact hcat (List.map_eq_nil_iff.mp hmap)

/-- Witness for C8: an unknown input against the one-entry catalog. -/
theorem C8_witness :
    (validate_search_params catalogBmw (some "zzz") none).valid = false
    ∧ (validate_search_params catalogBmw (some "zzz") none).sugg_marcas =
        some ((catalogBmw.map Prod.fst).take 5)
    ∧ (catalogBmw.map Prod.fst).take 5 ≠ [] := by
  have h := C8_unknown_brand_suggestions catalogBmw "zzz" (by decide) (by decide)
    (by decide)
  exact ⟨h.1, h.2.2.1, h.2.2.2.2⟩

/-! ## Extraction lemmas and claims -/

theorem parse_node_data_eq (node : NodeData) (a : ℚ) (cur : String)
    (year : Option Int) (mileage fuel : Option String)
    (hna : nodeAmount node = some (a, cur))
    (hep : extractParams node.parameters = some (year, mileage, fuel)) :
    parse_node_data node =
      some { titulo := node.title, preco := formatAmount a ++ " " ++ cur,
             preco_numerico := a, moeda := cur, ano := year,
             quilometragem := mileage, combustivel := fuel,
             url := node.url } := by
  unfold parse_node_data
  rw [hna, hep]

theorem mkHtmlCar_eq (url title g1 g2 : String) (year : Option Int)
    (mileage fuel : Option String) (v : ℚ) (cur : String)
    (h : htmlPrice g1 g2 = some (v, cur)) :
    mkHtmlCar url title g1 g2 year mileage fuel =
      some { titulo := title, preco := formatAmount v ++ " " ++ cur,
             preco_numerico := v, moeda := cur, ano := year,
             quilometragem := mileage, combustivel := fuel,
             url := some url } := by
  unfold mkHtmlCar
  rw [h]

theorem nodeAmount_nonneg (node : NodeData) (a : ℚ) (cur : String)
    (hnn : nodeAmountsNonneg node) (h : nodeAmount node = some (a, cur)) :
    0 ≤ a := by
  unfold nodeAmount at h
  unfold nodeAmountsNonneg at hnn
  cases hp : node.price with
  | amountObj units cc =>
    rw [hp] at h hnn
    cases units with
    | none => simp at h
    | some u =>
      by_cases hu : u = 0
      · simp [hu] at h
      · simp [hu] at h
        rw [← h.1]
        exact hnn u rfl
  | scalar v =>
    rw [hp] at h
    simp at h
  | scalarNumStr v =>
    rw [hp] at h hnn
    simp at h
    rw [← h.1]
    exact hnn
  | scalarBadStr => rw [hp] at h; simp at h
  | other => rw [hp] at h; simp at h

theorem htmlPrice_ge_500 (g1 g2 : String) (v : ℚ) (cur : String)
    (h : htmlPrice g1 g2 = some (v, cur)) : 500 ≤ v := by
  unfold htmlPrice at h
  cases hpd : parseDecimal? (cleanPriceStr g1) with
  | none => rw [hpd] at h; simp at h
  | some w =>
    rw [hpd] at h
    by_cases hw : w < 500
    · simp [hw] at h
    · simp [hw] at h
      rw [← h.1]
      exact not_lt.mp hw

/-- C1 counterexample: a structured-data record whose price is the numeric
string `-500` parses to a listing with negative numeric price — the string
branch reaches `float(amount)` with no sign guard (only the falsiness guard),
so the claimed invariant fails there. -/
theorem C1_counterexample :
    (parse_node_data negNode).map Car.preco_numerico = some (-500)
    ∧ ((-500 : ℚ) < 0) := by
  constructor
  · rfl
  · norm_num

/-- C1 (amended): a listing from the structured-data strategy has non-negative
numeric price whenever the reachable price amounts of the record — nested
units, or a numeric-string price — are non-negative (a negative such amount
passes through to the listing; bare int/float prices never produce a listing
at all); a listing from the visual-HTML strategy always has numeric price at
least 500, hence non-negative. -/
theorem C1_price_nonneg (node : NodeData) (car : Car)
    (url title g1 g2 : String) (year : Option Int)
    (mileage fuel : Option String) (car2 : Car)
    (hnn : nodeAmountsNonneg node)
    (hparse : parse_node_data node = some car)
    (hhtml : mkHtmlCar url title g1 g2 year mileage fuel = some car2) :
    0 ≤ car.preco_numerico
    ∧ 500 ≤ car2.preco_numerico ∧ 0 ≤ car2.preco_numerico := by
  refine ⟨?_, ?_⟩
  · cases hna : nodeAmount node with
    | none =>
      unfold parse_node_data at hparse
      rw [hna] at hparse
      simp at hparse
    | some ac =>
      obtain ⟨a, cur⟩ := ac
      cases hep : extractParams node.parameters with
      | none =>
        unfold parse_node_data at hparse
        rw [hna, hep] at hparse
        simp at hparse
      | some trip =>
        obtain ⟨y, mi, fu⟩ := trip
        rw [parse_node_data_eq node a cur y mi fu hna hep] at hparse
        have hcar := Option.some.inj hparse
        rw [← hcar]
        exact nodeAmount_nonneg node a cur hnn hna
  · cases hp : htmlPrice g1 g2 with
    | none =>
      unfold mkHtmlCar at hhtml
      rw [hp] at hhtml
      simp at hhtml
    | some vc =>
      obtain ⟨v, cur⟩ := vc
      rw [mkHtmlCar_eq url title g1 g2 year mileage fuel v cur hp] at hhtml
      have hcar := Option.some.inj hhtml
      rw [← hcar]
      have hv := htmlPrice_ge_500 g1 g2 v cur hp
      exact ⟨hv, le_trans (by norm_num) hv⟩

/-- Witness for the amended C1 at a concrete node (nested units 1000) and a
concrete HTML article (price groups 600 / PLN). -/
theorem C1_witness :
    (0 : ℚ) ≤ posCar.preco_numerico
    ∧ (500 : ℚ) ≤ htmlCar600.preco_numerico
    ∧ (0 : ℚ) ≤ htmlCar600.preco_numerico := by
  have hfmt1000 : formatAmount 1000 = "1000" := by
    unfold formatAmount
    rw [show roundHalfEven 1000 = 1000 from by unfold roundHalfEven; norm_num]
    rfl
  have hfmt600 : formatAmount 600 = "600" := by
    unfold formatAmount
    rw [show roundHalfEven 600 = 600 from by unfold roundHalfEven; norm_num]
    rfl
  have hparse : parse_node_data posNode = some posCar := by
    rw [parse_node_data_eq posNode 1000 "PLN" none none none (by decide) rfl,
      hfmt1000]
    rfl
  have hhtml : mkHtmlCar "u" "t" "600" "PLN" none none none = some htmlCar600 := by
    rw [mkHtmlCar_eq "u" "t" "600" "PLN" none none none 600 "PLN" (by decide),
      hfmt600]
    rfl
  have h := C1_price_nonneg posNode posCar "u" "t" "600" "PLN" none none none
    htmlCar600 (by norm_num [nodeAmountsNonneg, posNode]) hparse hhtml
  exact ⟨h.1, h.2.1, h.2.2⟩

end Otomoto
